import Mathlib

/-!
Shallow embedding of the survey branching engine of this repository
(`app/lib/branching.ts`): the condition evaluator, the visibility
resolver, and the state reconciler, together with proofs of the
specified properties.

Conventions of the embedding:
* JavaScript runtime values stored in the answer map (and appearing as
  condition operands) are modelled by the inductive type `Value`, with
  explicit constructors for `undefined` and `null`.  JavaScript numbers
  are modelled as exact rationals.
* The answer map `Record<string, any>` is modelled as a total function
  `String → Value`: indexing a missing key in JavaScript yields
  `undefined`, and the engine only ever accesses the map by indexing
  (`answers[code]`), so a total function with default `Value.undef` is
  an exact model of every read the engine performs.
* `===` (strict equality) is value equality on primitives and `false`
  between two arrays: JavaScript compares objects by reference, and the
  arrays reaching a comparison come from independently parsed JSON, so
  two array operands are never the same object.
* The TypeScript union `string | string[]` of an action `target` is the
  sum type `StrOrList`.
* `operator`, action `type` and the rule fields keep their runtime
  representation (`String`), so that malformed inputs (unknown
  operators, unknown action types) are representable, as the source
  explicitly handles them.
-/

set_option maxHeartbeats 1600000

/-- A JavaScript runtime value as stored in the answer map or in a
condition's `value` operand. -/
inductive Value : Type where
  | undef : Value
  | null : Value
  | bool (b : Bool) : Value
  | num (q : ℚ) : Value
  | str (s : String) : Value
  | arr (vs : List Value) : Value

/-- JavaScript strict equality `===` restricted to the values the engine
handles: equality on primitives of the same type, `false` across types,
and `false` between two arrays (reference inequality of distinct JSON
objects). -/
def jsStrictEq : Value → Value → Bool
  | Value.undef, Value.undef => true
  | Value.null, Value.null => true
  | Value.bool a, Value.bool b => a == b
  | Value.num a, Value.num b => a == b
  | Value.str a, Value.str b => a == b
  | _, _ => false

/-- The answer map (`Record<string, any>`), read only by indexing. -/
abbrev AnswerMap := String → Value

/-- Decimal digit test, as in JavaScript numeric-string parsing. -/
def isDecDigit (c : Char) : Bool := decide ('0' ≤ c) && decide (c ≤ '9')

/-- Digits to a natural number (most significant first). -/
def digitsToNat (l : List Char) : Nat :=
  l.foldl (fun n c => n * 10 + (c.toNat - 48)) 0

/-- Model of JavaScript `Number(string)`: trims whitespace, empty string
is `0`, then an optional sign followed by decimal digits with an
optional fractional part; anything else is `NaN` (`none`). -/
def parseNumber (s : String) : Option ℚ :=
  let t := (((s.data.dropWhile Char.isWhitespace).reverse.dropWhile
      Char.isWhitespace).reverse)
  if t.isEmpty then some 0
  else
    let signed : Bool × List Char :=
      match t with
      | '-' :: cs => (true, cs)
      | '+' :: cs => (false, cs)
      | cs => (false, cs)
    let intPart := signed.2.takeWhile isDecDigit
    let rest := signed.2.dropWhile isDecDigit
    let mag : Option ℚ :=
      match rest with
      | [] => if intPart.isEmpty then none else some ((digitsToNat intPart : ℚ))
      | '.' :: frac =>
        if frac.all isDecDigit && !(intPart.isEmpty && frac.isEmpty) then
          some (mkRat ((digitsToNat intPart) * 10 ^ frac.length + digitsToNat frac)
            (10 ^ frac.length))
        else none
      | _ => none
    match mag with
    | none => none
    | some q => some (if signed.1 then -q else q)

/-- Model of JavaScript `Number(value)` coercion; `none` is `NaN`.
Arrays coerce through their string join; the model covers the cases
that round-trip exactly (empty array, singleton number or numeric
string), other arrays coerce to `NaN`. -/
def toNumber : Value → Option ℚ
  | Value.undef => none
  | Value.null => some 0
  | Value.bool b => some (if b then 1 else 0)
  | Value.num q => some q
  | Value.str s => parseNumber s
  | Value.arr [] => some 0
  | Value.arr [Value.num q] => some q
  | Value.arr [Value.str s] => parseNumber s
  | Value.arr _ => none

/-- `Number(a) > Number(b)`: `false` when either side is `NaN`. -/
def numGt : Option ℚ → Option ℚ → Bool
  | some a, some b => decide (a > b)
  | _, _ => false

/-- `Number(a) >= Number(b)`: `false` when either side is `NaN`. -/
def numGte : Option ℚ → Option ℚ → Bool
  | some a, some b => decide (a ≥ b)
  | _, _ => false

/-- `Number(a) < Number(b)`: `false` when either side is `NaN`. -/
def numLt : Option ℚ → Option ℚ → Bool
  | some a, some b => decide (a < b)
  | _, _ => false

/-- `Number(a) <= Number(b)`: `false` when either side is `NaN`. -/
def numLte : Option ℚ → Option ℚ → Bool
  | some a, some b => decide (a ≤ b)
  | _, _ => false

mutual
/-- A condition node (`interface Condition` of `types/survey.ts`):
`operator` as its runtime string, optional `question_code`, the `value`
operand (`Value.undef` when the property is absent), and the optional
`conditions` child list. -/
inductive Condition : Type where
  | mk (operator : String) (question_code : Option String) (value : Value)
      (conditions : OptConditions) : Condition

/-- The optional `conditions?: Condition[]` property: either absent
(`undefined`) or a present list. -/
inductive OptConditions : Type where
  | undef : OptConditions
  | conds (cs : Conditions) : OptConditions

/-- A list of child conditions (inlined so that evaluation is
structurally recursive). -/
inductive Conditions : Type where
  | nil : Conditions
  | cons (c : Condition) (cs : Conditions) : Conditions
end

/-- Number of children in a child-condition list. -/
def Conditions.length : Conditions → Nat
  | Conditions.nil => 0
  | Conditions.cons _ cs => cs.length + 1

/-- The `operator` field of a condition. -/
def Condition.operator : Condition → String
  | Condition.mk op _ _ _ => op

/-- The `question_code` field of a condition. -/
def Condition.question_code : Condition → Option String
  | Condition.mk _ qc _ _ => qc

/-- The `value` field of a condition. -/
def Condition.value : Condition → Value
  | Condition.mk _ _ v _ => v

/-- The `conditions` field of a condition. -/
def Condition.conditions : Condition → OptConditions
  | Condition.mk _ _ _ cs => cs

/-- The non-compound tail of `evaluateCondition(condition, answers)` of
`branching.ts` (the part after the `and`/`or`/`not` cases): requires a
truthy `question_code`, returns `false` on an `undefined`/`null` stored
answer, otherwise dispatches on the comparison operator; unknown
operators fall through to `false` (the `default` arm of the switch). -/
def evaluateSimpleCondition (operator : String) (question_code : Option String)
    (value : Value) (answers : AnswerMap) : Bool :=
  match question_code with
  | none => false
  | some qc =>
    if qc = "" then false
    else
      let answerValue := answers qc
      if jsStrictEq answerValue Value.undef || jsStrictEq answerValue Value.null then
        false
      else if operator = "equals" then jsStrictEq answerValue value
      else if operator = "one_of" then
        match value with
        | Value.arr vs => vs.any (fun v => jsStrictEq v answerValue)
        | _ => false
      else if operator = "includes" then
        match answerValue with
        | Value.arr vs => vs.any (fun v => jsStrictEq v value)
        | _ => false
      else if operator = "gt" then numGt (toNumber answerValue) (toNumber value)
      else if operator = "gte" then numGte (toNumber answerValue) (toNumber value)
      else if operator = "lt" then numLt (toNumber answerValue) (toNumber value)
      else if operator = "lte" then numLte (toNumber answerValue) (toNumber value)
      else false

mutual
/-- `evaluateCondition(condition, answers)` of `branching.ts`:
evaluates one condition node against the answer map.  Each compound
case of the source maps to its own helper (`evalAnd` for
`conditions?.every(...) ?? false`, `evalOr` for
`conditions?.some(...) ?? false`, `evalNot` for the
`conditions?.length === 1` single-child negation); every other operator
is handled by `evaluateSimpleCondition`. -/
def evaluateCondition (c : Condition) (answers : AnswerMap) : Bool :=
  match c with
  | Condition.mk operator question_code value conditions =>
    if operator = "and" then evalAnd conditions answers
    else if operator = "or" then evalOr conditions answers
    else if operator = "not" then evalNot conditions answers
    else evaluateSimpleCondition operator question_code value answers

/-- `conditions?.every(c => evaluateCondition(c, answers)) ?? false`. -/
def evalAnd : OptConditions → AnswerMap → Bool
  | OptConditions.undef, _ => false
  | OptConditions.conds cs, answers => evalConditionsEvery cs answers

/-- `conditions?.some(c => evaluateCondition(c, answers)) ?? false`. -/
def evalOr : OptConditions → AnswerMap → Bool
  | OptConditions.undef, _ => false
  | OptConditions.conds cs, answers => evalConditionsSome cs answers

/-- `conditions?.length === 1 ? !evaluateCondition(conditions[0], answers) : false`. -/
def evalNot : OptConditions → AnswerMap → Bool
  | OptConditions.conds (Conditions.cons c0 Conditions.nil), answers =>
    !evaluateCondition c0 answers
  | _, _ => false

/-- `conditions.every(c => evaluateCondition(c, answers))`. -/
def evalConditionsEvery : Conditions → AnswerMap → Bool
  | Conditions.nil, _ => true
  | Conditions.cons c rest, answers =>
    evaluateCondition c answers && evalConditionsEvery rest answers

/-- `conditions.some(c => evaluateCondition(c, answers))`. -/
def evalConditionsSome : Conditions → AnswerMap → Bool
  | Conditions.nil, _ => false
  | Conditions.cons c rest, answers =>
    evaluateCondition c answers || evalConditionsSome rest answers
end

example :
    evaluateCondition
      (Condition.mk ("equals") (some ("q1")) (Value.str ("yes")) OptConditions.undef)
      (fun k => if k = "q1" then Value.str ("yes") else Value.undef) = true := by
  decide

/-- A survey question (`interface Question` of `types/survey.ts`),
restricted to the fields the branching engine reads, plus the
descriptive fields it carries along unchanged. -/
structure Question : Type where
  type : String
  code : String
  title : String
  required : Bool
  visible_if : Option Condition

/-- The TypeScript union `string | string[]` used for an action's
`target`. -/
inductive StrOrList : Type where
  | single (s : String) : StrOrList
  | list (l : List String) : StrOrList

/-- `Array.isArray(target) ? target : [target]`. -/
def StrOrList.toList : StrOrList → List String
  | StrOrList.single s => [s]
  | StrOrList.list l => l

/-- `Array.isArray(target) ? target[0] : target` — `none` models the
`undefined` produced by indexing an empty array. -/
def StrOrList.first : StrOrList → Option String
  | StrOrList.single s => some s
  | StrOrList.list l => l.head?

/-- A branching action (`interface BranchingAction`): its runtime
`type` string and its `target`. -/
structure BranchingAction : Type where
  type : String
  target : StrOrList

/-- A branching rule (`interface BranchingRule`); `priority` is an
optional integer. -/
structure BranchingRule : Type where
  id : String
  condition : Condition
  action : BranchingAction
  priority : Option Int

/-- A survey (`interface Survey`), restricted to the fields the engine
reads.  The optional `branching_rules` property is modelled as a plain
list: the engine destructures it with default `[]`, so an absent
property and an empty list are indistinguishable to it. -/
structure Survey : Type where
  code : String
  type : String
  version : String
  title : String
  questions : List Question
  branching_rules : List BranchingRule

/-- `evaluateBranchingRule(rule, answers)` of `branching.ts`. -/
def evaluateBranchingRule (rule : BranchingRule) (answers : AnswerMap) : Bool :=
  evaluateCondition rule.condition answers

/-- The sort key `rule.priority ?? 0` of `getApplicableBranchingRules`. -/
def rulePriority (r : BranchingRule) : Int :=
  r.priority.getD 0

/-- The ordering induced by the comparator
`(a, b) => (a.priority ?? 0) - (b.priority ?? 0)`. -/
def ruleLE (a b : BranchingRule) : Prop :=
  rulePriority a ≤ rulePriority b

instance : DecidableRel ruleLE := fun a b =>
  inferInstanceAs (Decidable (rulePriority a ≤ rulePriority b))

instance : IsTotal BranchingRule ruleLE :=
  ⟨fun a b => le_total (rulePriority a) (rulePriority b)⟩

instance : IsTrans BranchingRule ruleLE :=
  ⟨fun _ _ _ hab hbc => le_trans hab hbc⟩

/-- `getApplicableBranchingRules(rules, answers)` of `branching.ts`:
filter to the rules whose condition holds, then sort by
`priority ?? 0` ascending.  `Array.prototype.sort` is guaranteed
stable, so it is modelled by the stable `List.insertionSort` under the
comparator's ordering. -/
def getApplicableBranchingRules (rules : List BranchingRule) (answers : AnswerMap) :
    List BranchingRule :=
  List.insertionSort ruleLE (rules.filter (fun rule => evaluateBranchingRule rule answers))

/-- `applyBranchingAction(currentVisible, action, allQuestions)` of
`branching.ts`: interprets one branching action over the current
visible list, with `allQuestions` the original `survey.questions`. -/
def applyBranchingAction (currentVisible : List Question) (action : BranchingAction)
    (allQuestions : List Question) : List Question :=
  if action.type = "skip_questions" then
    let targetCodes := action.target.toList
    currentVisible.filter (fun q => !(targetCodes.contains q.code))
  else if action.type = "goto_question" then
    let targetCode := action.target.first
    match List.findIdx? (fun q => targetCode == some q.code) allQuestions with
    | none => currentVisible
    | some targetIndex =>
      let questionCodesToShow := (allQuestions.take (targetIndex + 1)).map Question.code
      currentVisible.filter (fun q => questionCodesToShow.contains q.code)
  else if action.type = "require_questions" then
    let targetCodes := action.target.toList
    let questionsToAdd := allQuestions.filter (fun q =>
      targetCodes.contains q.code && !(currentVisible.any (fun vq => vq.code == q.code)))
    currentVisible ++ questionsToAdd
  else if action.type = "insert_questions_after" then
    let targetCodes := action.target.toList
    let questionsToAdd := allQuestions.filter (fun q =>
      targetCodes.contains q.code && !(currentVisible.any (fun vq => vq.code == q.code)))
    currentVisible ++ questionsToAdd
  else
    currentVisible

/-- `getVisibleQuestions(survey, answers)` of `branching.ts`: filter by
question-level `visible_if`, then fold the applicable branching rules
(in sorted order) over the visible list. -/
def getVisibleQuestions (survey : Survey) (answers : AnswerMap) : List Question :=
  let step1 := survey.questions.filter (fun question =>
    match question.visible_if with
    | none => true
    | some cond => evaluateCondition cond answers)
  (getApplicableBranchingRules survey.branching_rules answers).foldl
    (fun visibleQuestions rule =>
      applyBranchingAction visibleQuestions rule.action survey.questions)
    step1

/-- Iteration order of a JavaScript `Set` built from a list: insertion
order with later duplicates dropped (`seen` accumulates the codes
already emitted). -/
def dedupFirstAux (seen : List String) : List String → List String
  | [] => []
  | a :: l =>
    if seen.contains a then dedupFirstAux seen l
    else a :: dedupFirstAux (a :: seen) l

/-- The element sequence of `new Set(l)`: first occurrences in order. -/
def dedupFirst (l : List String) : List String :=
  dedupFirstAux [] l

/-- `getVoidedAnswers(previouslyVisible, currentlyVisible, answers)` of
`branching.ts`: the codes visible before but not now, restricted to
those with a stored (non-`undefined`) answer. -/
def getVoidedAnswers (previouslyVisible currentlyVisible : List Question)
    (answers : AnswerMap) : List String :=
  let previousCodes := dedupFirst (previouslyVisible.map Question.code)
  let currentCodes := currentlyVisible.map Question.code
  let hiddenQuestionCodes := previousCodes.filter (fun code => !(currentCodes.contains code))
  hiddenQuestionCodes.filter (fun code => !(jsStrictEq (answers code) Value.undef))

/-- `Math.round`: round half toward positive infinity. -/
def jsRound (x : ℚ) : Int :=
  ⌊x + 1 / 2⌋

/-- The per-question answered test of `calculateProgress`:
`answers[q.code] !== undefined && answers[q.code] !== null &&
answers[q.code] !== ''`. -/
def isAnswered (answers : AnswerMap) (q : Question) : Bool :=
  !(jsStrictEq (answers q.code) Value.undef) &&
    !(jsStrictEq (answers q.code) Value.null) &&
    !(jsStrictEq (answers q.code) (Value.str ("")))

/-- `calculateProgress(answers, visibleQuestions)` of `branching.ts`. -/
def calculateProgress (answers : AnswerMap) (visibleQuestions : List Question) : Int :=
  if visibleQuestions.length = 0 then 0
  else
    let answeredCount := (visibleQuestions.filter (isAnswered answers)).length
    jsRound ((answeredCount : ℚ) / (visibleQuestions.length : ℚ) * 100)

/-- The voiding loop of `updateSurveyState`: spread-copy the answer
map, then `delete updatedAnswers[code]` for each voided code (a deleted
key reads back as `undefined`). -/
def deleteKeys (m : AnswerMap) (codes : List String) : AnswerMap :=
  codes.foldl (fun acc code => fun k => if k = code then Value.undef else acc k) m

/-- The result record of `updateSurveyState`. -/
structure BranchingStateUpdate : Type where
  visibleQuestions : List Question
  voidedAnswerCodes : List String
  updatedAnswers : AnswerMap
  progressPercentage : Int

/-- `updateSurveyState(survey, currentAnswers, previouslyVisibleQuestions)`
of `branching.ts`: recompute visibility, void answers of questions that
became hidden, and recompute progress from the updated answers. -/
def updateSurveyState (survey : Survey) (currentAnswers : AnswerMap)
    (previouslyVisibleQuestions : List Question) : BranchingStateUpdate :=
  let visibleQuestions := getVisibleQuestions survey currentAnswers
  let voidedAnswerCodes := getVoidedAnswers previouslyVisibleQuestions visibleQuestions
    currentAnswers
  let updatedAnswers := deleteKeys currentAnswers voidedAnswerCodes
  let progressPercentage := calculateProgress updatedAnswers visibleQuestions
  BranchingStateUpdate.mk visibleQuestions voidedAnswerCodes updatedAnswers progressPercentage

/-! Concrete fixtures: the sample survey of the test suite (smoker
question `q1`, cigarette count `q2` visible iff `q1 = yes`, age range
`q3`, BMI `q4`), with the two branching rules
`skip q4 if q3 = young (priority 1)` and
`require q4 if q2 > 20 (priority 2)`. -/

/-- Fixture: question `q1`. -/
def mockQ1 : Question :=
  Question.mk ("SINGLE_SELECT") ("q1") ("Are you a smoker?") true none

/-- Fixture: question `q2`, visible iff `q1 = yes`. -/
def mockQ2 : Question :=
  Question.mk ("INPUT") ("q2") ("How many cigarettes per day?") true
    (some (Condition.mk ("equals") (some ("q1")) (Value.str ("yes")) OptConditions.undef))

/-- Fixture: question `q3`. -/
def mockQ3 : Question :=
  Question.mk ("SINGLE_SELECT") ("q3") ("Your age range?") true none

/-- Fixture: question `q4`. -/
def mockQ4 : Question :=
  Question.mk ("INPUT") ("q4") ("Your BMI?") false none

/-- Fixture: rule `rule1`: skip `q4` when `q3 = young`, priority 1. -/
def mockRule1 : BranchingRule :=
  BranchingRule.mk ("rule1")
    (Condition.mk ("equals") (some ("q3")) (Value.str ("young")) OptConditions.undef)
    (BranchingAction.mk ("skip_questions") (StrOrList.list [("q4")]))
    (some 1)

/-- Fixture: rule `rule2`: require `q4` when `q2 > 20`, priority 2. -/
def mockRule2 : BranchingRule :=
  BranchingRule.mk ("rule2")
    (Condition.mk ("gt") (some ("q2")) (Value.num 20) OptConditions.undef)
    (BranchingAction.mk ("require_questions") (StrOrList.list [("q4")]))
    (some 2)

/-- Fixture: the sample survey. -/
def mockSurvey : Survey :=
  Survey.mk ("test") ("TEST") ("1.0.0") ("Test Survey")
    [mockQ1, mockQ2, mockQ3, mockQ4] [mockRule1, mockRule2]

/-- Fixture: answers `{q1: 'yes', q2: '25', q3: 'young'}` — both the
skip rule and the require rule apply. -/
def cexAnswers : AnswerMap := fun k =>
  if k = "q1" then Value.str ("yes")
  else if k = "q2" then Value.str ("25")
  else if k = "q3" then Value.str ("young")
  else Value.undef

example : (getVisibleQuestions mockSurvey cexAnswers).map Question.code
    = [("q1"), ("q2"), ("q3"), ("q4")] := by decide
example : evaluateCondition mockRule1.condition cexAnswers = true := by decide
example : evaluateCondition mockRule2.condition cexAnswers = true := by decide
example : (getApplicableBranchingRules mockSurvey.branching_rules cexAnswers).map
    BranchingRule.id = [("rule1"), ("rule2")] := by decide
example : (getVisibleQuestions mockSurvey (fun _ => Value.undef)).map Question.code
    = [("q1"), ("q3"), ("q4")] := by decide

/-! Helper lemmas about the condition evaluator. -/

/-- A non-compound condition whose stored answer is `undefined` or
`null` evaluates to `false`: the evaluator short-circuits before any
comparison. -/
theorem eval_noncompound_unanswered (op : String) (qc : String) (v : Value)
    (conds : OptConditions) (answers : AnswerMap)
    (hand : op ≠ "and") (hor : op ≠ "or") (hnot : op ≠ "not")
    (ha : answers qc = Value.undef ∨ answers qc = Value.null) :
    evaluateCondition (Condition.mk op (some qc) v conds) answers = false := by
  have hguard : (jsStrictEq (answers qc) Value.undef
      || jsStrictEq (answers qc) Value.null) = true := by
    rcases ha with h | h <;> rw [h] <;> decide
  rw [evaluateCondition.eq_1]
  by_cases hqc : qc = ""
  · simp [evaluateSimpleCondition, hand, hor, hnot, hqc]
  · simp [evaluateSimpleCondition, hand, hor, hnot, hqc, hguard]

/-- Operators the evaluator knows (`ConditionOperator` of
`types/survey.ts`). -/
def knownOperators : List String :=
  [("equals"), ("one_of"), ("includes"), ("gt"), ("gte"), ("lt"), ("lte"),
    ("and"), ("or"), ("not")]

/-- C1 counterexample: an `and` condition with a present but EMPTY
`conditions` list evaluates to `true`, not `false` as claimed — the
source computes `[].every(...)`, which is vacuously `true`; the
`?? false` default applies only when `conditions` is absent. -/
theorem C1_counterexample :
    evaluateCondition
      (Condition.mk ("and") none Value.undef (OptConditions.conds Conditions.nil))
      (fun _ => Value.undef) = true := by
  decide

/-- C1 (amended): an `and` with an EMPTY `conditions` list evaluates to
`true` (vacuous truth of `every`); an `and` with ABSENT `conditions`
evaluates to `false`; and a two-child `and` is the conjunction of its
children's evaluations against the same answer map. -/
theorem C1_and_semantics (answers : AnswerMap) (qc : Option String) (v : Value)
    (A B : Condition) :
    evaluateCondition (Condition.mk ("and") qc v (OptConditions.conds Conditions.nil))
        answers = true ∧
    evaluateCondition (Condition.mk ("and") qc v OptConditions.undef) answers = false ∧
    evaluateCondition
        (Condition.mk ("and") qc v
          (OptConditions.conds (Conditions.cons A (Conditions.cons B Conditions.nil))))
        answers
      = (evaluateCondition A answers && evaluateCondition B answers) := by
  refine ⟨rfl, rfl, ?_⟩
  rw [evaluateCondition.eq_1]
  simp [evalAnd, evalConditionsEvery, Bool.and_true]

/-- C4: a non-compound condition (operator among the seven comparison
operators, with a `question_code`) whose stored answer is `undefined`
or `null` evaluates to `false`, whatever the operand. -/
theorem C4_missing_answer_short_circuit (op : String)
    (hop : op ∈ [("equals"), ("one_of"), ("includes"), ("gt"), ("gte"), ("lt"), ("lte")])
    (qc : String) (v : Value) (conds : OptConditions) (answers : AnswerMap)
    (ha : answers qc = Value.undef ∨ answers qc = Value.null) :
    evaluateCondition (Condition.mk op (some qc) v conds) answers = false := by
  fin_cases hop <;>
    exact eval_noncompound_unanswered _ _ _ _ _ (by decide) (by decide) (by decide) ha

/-- C4 witness: `equals` against a wholly unanswered map is `false`. -/
theorem C4_missing_answer_short_circuit_witness :
    evaluateCondition
      (Condition.mk ("equals") (some ("q1")) (Value.str ("yes")) OptConditions.undef)
      (fun _ => Value.undef) = false :=
  C4_missing_answer_short_circuit ("equals") (by decide) ("q1") (Value.str ("yes"))
    OptConditions.undef (fun _ => Value.undef) (Or.inl rfl)

/-- C9: the evaluator is a total boolean function (it can only return
`true` or `false` — in this embedding it never throws by construction),
and malformed conditions degrade to `false`: an unknown operator, a
`not` with absent `conditions` or with a child count other than one,
and a non-compound operator with a missing `question_code` all yield
`false`. -/
theorem C9_evaluator_total_defensive (c : Condition) (answers : AnswerMap)
    (op : String) (qc : Option String) (v : Value) (conds : OptConditions)
    (cs : Conditions) :
    (evaluateCondition c answers = true ∨ evaluateCondition c answers = false) ∧
    (op ∉ knownOperators → evaluateCondition (Condition.mk op qc v conds) answers = false) ∧
    (evaluateCondition (Condition.mk ("not") qc v OptConditions.undef) answers = false) ∧
    (cs.length ≠ 1 →
      evaluateCondition (Condition.mk ("not") qc v (OptConditions.conds cs)) answers
        = false) ∧
    (op ≠ "and" → op ≠ "or" → op ≠ "not" →
      evaluateCondition (Condition.mk op none v conds) answers = false) := by
  refine ⟨?_, ?_, rfl, ?_, ?_⟩
  · cases h : evaluateCondition c answers
    · exact Or.inr rfl
    · exact Or.inl rfl
  · intro hop
    simp only [knownOperators, List.mem_cons, List.not_mem_nil, or_false, not_or] at hop
    obtain ⟨h1, h2, h3, h4, h5, h6, h7, h8, h9, h10⟩ := hop
    rw [evaluateCondition.eq_1]
    simp only [if_neg h8, if_neg h9, if_neg h10]
    cases qc with
    | none => rfl
    | some q =>
      by_cases hq : q = ""
      · simp [evaluateSimpleCondition, hq]
      · cases hg : (jsStrictEq (answers q) Value.undef || jsStrictEq (answers q) Value.null)
        · simp [evaluateSimpleCondition, hq, hg, h1, h2, h3, h4, h5, h6, h7]
        · simp [evaluateSimpleCondition, hq, hg]
  · intro hlen
    cases cs with
    | nil => rfl
    | cons c0 rest =>
      cases rest with
      | nil => exact absurd rfl hlen
      | cons c1 rest2 => rfl
  · intro hand hor hnot
    rw [evaluateCondition.eq_1]
    simp only [if_neg hand, if_neg hor, if_neg hnot]
    rfl

/-- C9 witness: an unknown operator and a zero-child `not` both
evaluate to `false` on a concrete answer map. -/
theorem C9_evaluator_total_defensive_witness :
    evaluateCondition (Condition.mk ("xor") (some ("q1")) Value.null OptConditions.undef)
      (fun _ => Value.str ("x")) = false ∧
    evaluateCondition
      (Condition.mk ("not") (some ("q1")) Value.null (OptConditions.conds Conditions.nil))
      (fun _ => Value.str ("x")) = false :=
  ⟨(C9_evaluator_total_defensive
      (Condition.mk ("xor") (some ("q1")) Value.null OptConditions.undef)
      (fun _ => Value.str ("x")) ("xor") (some ("q1")) Value.null OptConditions.undef
      Conditions.nil).2.1 (by decide),
    (C9_evaluator_total_defensive
      (Condition.mk ("xor") (some ("q1")) Value.null OptConditions.undef)
      (fun _ => Value.str ("x")) ("xor") (some ("q1")) Value.null OptConditions.undef
      Conditions.nil).2.2.2.1 (by decide)⟩

/-! Helper lemmas about the reconciler. -/

/-- Pointwise effect of the voiding loop: a key reads back `undefined`
iff it was among the deleted codes, and is untouched otherwise. -/
theorem deleteKeys_apply (m : AnswerMap) (codes : List String) (k : String) :
    deleteKeys m codes k = if k ∈ codes then Value.undef else m k := by
  induction codes generalizing m with
  | nil => simp [deleteKeys]
  | cons c rest ih =>
    have hstep : deleteKeys m (c :: rest)
        = deleteKeys (fun x => if x = c then Value.undef else m x) rest := rfl
    rw [hstep, ih]
    by_cases h1 : k ∈ rest
    · simp [h1]
    · by_cases h2 : k = c
      · simp [h1, h2]
      · simp [h1, h2]

/-- Every code emitted by the `Set` iteration occurs in the underlying
list. -/
theorem dedupFirstAux_subset (seen l : List String) (c : String)
    (hc : c ∈ dedupFirstAux seen l) : c ∈ l := by
  induction l generalizing seen with
  | nil => simp [dedupFirstAux] at hc
  | cons a rest ih =>
    simp only [dedupFirstAux] at hc
    by_cases h : seen.contains a
    · simp only [if_pos h] at hc
      exact List.mem_cons_of_mem _ (ih _ hc)
    · simp only [if_neg h, List.mem_cons] at hc
      rcases hc with rfl | hc
      · exact List.mem_cons_self _ _
      · exact List.mem_cons_of_mem _ (ih _ hc)

/-- Reconciling with the currently visible set voids nothing. -/
theorem getVoidedAnswers_self (vis : List Question) (a : AnswerMap) :
    getVoidedAnswers vis vis a = [] := by
  unfold getVoidedAnswers
  have h : (dedupFirst (vis.map Question.code)).filter
      (fun code => !((vis.map Question.code).contains code)) = [] := by
    rw [List.filter_eq_nil_iff]
    intro c hc
    have hmem : c ∈ vis.map Question.code := dedupFirstAux_subset _ _ _ hc
    simp [List.elem_eq_mem, hmem]
  simp only [h, List.filter_nil]

/-- A voided code never names a currently visible question. -/
theorem getVoidedAnswers_not_current (prev cur : List Question) (a : AnswerMap)
    (c : String) (hc : c ∈ getVoidedAnswers prev cur a) :
    c ∉ cur.map Question.code := by
  unfold getVoidedAnswers at hc
  have h1 := (List.mem_filter.mp hc).1
  have h2 := (List.mem_filter.mp h1).2
  intro hmem
  simp [List.elem_eq_mem, hmem] at h2

/-- `calculateProgress` reads the answer map only at the codes of the
visible questions. -/
theorem calculateProgress_congr (a b : AnswerMap) (vis : List Question)
    (h : ∀ q ∈ vis, a q.code = b q.code) :
    calculateProgress a vis = calculateProgress b vis := by
  unfold calculateProgress
  by_cases hlen : vis.length = 0
  · simp [hlen]
  · have hfilter : vis.filter (isAnswered a) = vis.filter (isAnswered b) :=
      List.filter_congr (fun q hq => by unfold isAnswered; rw [h q hq])
    simp only [if_neg hlen, hfilter]

/-- C5: reconciliation is idempotent — reconciling against the visible
set freshly derived from the same answers voids nothing and leaves the
answer map unchanged. -/
theorem C5_reconcile_idempotent (survey : Survey) (a : AnswerMap) :
    (updateSurveyState survey a (getVisibleQuestions survey a)).voidedAnswerCodes = [] ∧
    (updateSurveyState survey a (getVisibleQuestions survey a)).updatedAnswers = a := by
  have hv : (updateSurveyState survey a (getVisibleQuestions survey a)).voidedAnswerCodes
      = [] := getVoidedAnswers_self (getVisibleQuestions survey a) a
  refine ⟨hv, ?_⟩
  have hu : (updateSurveyState survey a (getVisibleQuestions survey a)).updatedAnswers
      = deleteKeys a
          ((updateSurveyState survey a (getVisibleQuestions survey a)).voidedAnswerCodes) :=
    rfl
  rw [hu, hv]
  rfl

/-- C8: `updateSurveyState` does not mutate the caller's map (in this
pure embedding the input is a value and is unchanged by construction);
its `updatedAnswers` is the input map with exactly the keys of
`voidedAnswerCodes` reading back as `undefined` and every other key
mapped to its input value. -/
theorem C8_updated_answers_pointwise (survey : Survey) (currentAnswers : AnswerMap)
    (previouslyVisibleQuestions : List Question) (k : String) :
    (updateSurveyState survey currentAnswers previouslyVisibleQuestions).updatedAnswers k
      = if k ∈ (updateSurveyState survey currentAnswers
            previouslyVisibleQuestions).voidedAnswerCodes
        then Value.undef else currentAnswers k :=
  deleteKeys_apply currentAnswers _ k

/-- C7: `calculateProgress` returns `0` on an empty visible list,
otherwise `Math.round(100 * answeredCount / totalCount)` with
`answeredCount` the visible questions whose answer is defined, non-null
and non-empty-string; the result always lies between 0 and 100. -/
theorem C7_progress_bounds (answers : AnswerMap) (vq : List Question) :
    (vq = [] → calculateProgress answers vq = 0) ∧
    (vq ≠ [] → calculateProgress answers vq
      = jsRound (100 * ((vq.filter (isAnswered answers)).length : ℚ) / (vq.length : ℚ))) ∧
    0 ≤ calculateProgress answers vq ∧ calculateProgress answers vq ≤ 100 := by
  have hcnt : (vq.filter (isAnswered answers)).length ≤ vq.length :=
    List.length_filter_le _ _
  by_cases hvq : vq = []
  · subst hvq
    exact ⟨fun _ => rfl, fun h => absurd rfl h, by simp [calculateProgress],
      by simp [calculateProgress]⟩
  · have hlen : ¬(vq.length = 0) := by simpa [List.length_eq_zero] using hvq
    have hlenpos : 0 < (vq.length : ℚ) := by
      exact_mod_cast Nat.pos_of_ne_zero hlen
    have heq : calculateProgress answers vq
        = jsRound (((vq.filter (isAnswered answers)).length : ℚ) / (vq.length : ℚ) * 100) := by
      unfold calculateProgress
      rw [if_neg hlen]
    have hque : ((vq.filter (isAnswered answers)).length : ℚ) / (vq.length : ℚ) * 100
        = 100 * ((vq.filter (isAnswered answers)).length : ℚ) / (vq.length : ℚ) := by
      ring
    have hx0 : 0 ≤ ((vq.filter (isAnswered answers)).length : ℚ) / (vq.length : ℚ) * 100 := by
      positivity
    have hx100 : ((vq.filter (isAnswered answers)).length : ℚ) / (vq.length : ℚ) * 100
        ≤ 100 := by
      have h1 : ((vq.filter (isAnswered answers)).length : ℚ) ≤ (vq.length : ℚ) := by
        exact_mod_cast hcnt
      have h2 : ((vq.filter (isAnswered answers)).length : ℚ) / (vq.length : ℚ) ≤ 1 := by
        rw [div_le_one hlenpos]
        exact h1
      nlinarith
    refine ⟨fun h => absurd h hvq, fun _ => by rw [heq, hque], ?_, ?_⟩
    · rw [heq]
      unfold jsRound
      exact Int.floor_nonneg.mpr (by linarith)
    · rw [heq]
      unfold jsRound
      by_contra hcon
      push_neg at hcon
      have h101 : (101 : ℤ)
          ≤ ⌊((vq.filter (isAnswered answers)).length : ℚ) / (vq.length : ℚ) * 100 + 1 / 2⌋ := by
        omega
      have hle := Int.le_floor.mp h101
      push_cast at hle
      linarith

/-- C7 witness: the empty visible list yields 0; bounds and the
rounding formula hold at concrete inputs. -/
theorem C7_progress_bounds_witness :
    calculateProgress (fun _ => Value.undef) [] = 0 ∧
    (0 ≤ calculateProgress cexAnswers [mockQ1] ∧
      calculateProgress cexAnswers [mockQ1] ≤ 100) ∧
    calculateProgress cexAnswers [mockQ1, mockQ2, mockQ3]
      = jsRound (100 * ((([mockQ1, mockQ2, mockQ3].filter
          (isAnswered cexAnswers)).length : ℚ))
            / (([mockQ1, mockQ2, mockQ3] : List Question).length : ℚ)) :=
  ⟨(C7_progress_bounds (fun _ => Value.undef) []).1 rfl,
    ⟨(C7_progress_bounds cexAnswers [mockQ1]).2.2.1,
      (C7_progress_bounds cexAnswers [mockQ1]).2.2.2⟩,
    (C7_progress_bounds cexAnswers [mockQ1, mockQ2, mockQ3]).2.1 (by simp)⟩

/-- C10: every voided code names a question absent from the returned
visible list, and consequently the returned progress, though computed
from the updated answers, equals the progress computed from the input
answers over the same visible list. -/
theorem C10_voiding_invisible_progress (survey : Survey) (a : AnswerMap)
    (prev : List Question) :
    (∀ c ∈ (updateSurveyState survey a prev).voidedAnswerCodes,
      c ∉ ((updateSurveyState survey a prev).visibleQuestions.map Question.code)) ∧
    (updateSurveyState survey a prev).progressPercentage
      = calculateProgress a ((updateSurveyState survey a prev).visibleQuestions) := by
  constructor
  · intro c hc
    exact getVoidedAnswers_not_current prev (getVisibleQuestions survey a) a c hc
  · have hp : (updateSurveyState survey a prev).progressPercentage
        = calculateProgress
            (deleteKeys a (getVoidedAnswers prev (getVisibleQuestions survey a) a))
            (getVisibleQuestions survey a) := rfl
    rw [hp]
    apply calculateProgress_congr
    intro q hq
    rw [deleteKeys_apply]
    have hnot : q.code ∉ getVoidedAnswers prev (getVisibleQuestions survey a) a := by
      intro hmem
      exact getVoidedAnswers_not_current _ _ _ _ hmem
        (List.mem_map_of_mem Question.code hq)
    simp [hnot]

/-- Fixture: answers `{q1: 'no', q2: '10'}` — changing `q1` to `no`
hides `q2`, whose stored answer must then be voided. -/
def voidAnswers : AnswerMap := fun k =>
  if k = "q1" then Value.str ("no")
  else if k = "q2" then Value.str ("10")
  else Value.undef

/-- C10 witness: with the sample survey and `{q1:'no', q2:'10'}`, the
voided code `q2` is not among the visible codes, and the reported
progress equals the progress of the input answers over the returned
visible list. -/
theorem C10_voiding_invisible_progress_witness :
    ("q2" ∉ ((updateSurveyState mockSurvey voidAnswers
        [mockQ1, mockQ2, mockQ3, mockQ4]).visibleQuestions.map Question.code)) ∧
    (updateSurveyState mockSurvey voidAnswers
        [mockQ1, mockQ2, mockQ3, mockQ4]).progressPercentage
      = calculateProgress voidAnswers
          ((updateSurveyState mockSurvey voidAnswers
            [mockQ1, mockQ2, mockQ3, mockQ4]).visibleQuestions) :=
  ⟨(C10_voiding_invisible_progress mockSurvey voidAnswers
      [mockQ1, mockQ2, mockQ3, mockQ4]).1 ("q2") (by decide),
    (C10_voiding_invisible_progress mockSurvey voidAnswers
      [mockQ1, mockQ2, mockQ3, mockQ4]).2⟩

/-! Helper lemmas for the stable sort of applicable rules (C6). -/

/-- Inserting a rule into a list keeps, for each priority value, the
existing sequence of rules of that priority, with the new rule
prepended when it has that priority: the insertion point lies after
every strictly smaller key and before every key that is not smaller. -/
theorem filter_key_orderedInsert (v : Int) (a : BranchingRule) (l : List BranchingRule) :
    (List.orderedInsert ruleLE a l).filter (fun r => rulePriority r == v)
      = if rulePriority a = v
        then a :: l.filter (fun r => rulePriority r == v)
        else l.filter (fun r => rulePriority r == v) := by
  induction l with
  | nil =>
    by_cases hav : rulePriority a = v <;> simp [List.orderedInsert, hav]
  | cons b rest ih =>
    by_cases hab : ruleLE a b
    · rw [List.orderedInsert, if_pos hab]
      by_cases hav : rulePriority a = v <;> simp [hav, List.filter_cons]
    · have hba : rulePriority b < rulePriority a := lt_of_not_le hab
      rw [List.orderedInsert, if_neg hab, List.filter_cons, ih]
      by_cases hav : rulePriority a = v
      · have hbv : ¬(rulePriority b = v) := by
          rw [← hav]
          exact ne_of_lt hba
        simp [hav, hbv, List.filter_cons]
      · by_cases hbv : rulePriority b = v <;> simp [hav, hbv, List.filter_cons]

/-- The stable sort of the applicable rules keeps, for each priority
value, the original sequence of rules of that priority. -/
theorem filter_key_insertionSort (v : Int) (l : List BranchingRule) :
    (List.insertionSort ruleLE l).filter (fun r => rulePriority r == v)
      = l.filter (fun r => rulePriority r == v) := by
  induction l with
  | nil => rfl
  | cons a rest ih =>
    have h1 : List.insertionSort ruleLE (a :: rest)
        = List.orderedInsert ruleLE a (List.insertionSort ruleLE rest) := rfl
    rw [h1, filter_key_orderedInsert, ih]
    by_cases hav : rulePriority a = v <;> simp [hav, List.filter_cons]

/-- C6: `getApplicableBranchingRules` returns a list that is sorted by
`priority ?? 0` ascending, is a permutation of the sublist of rules
whose condition evaluates true, and — per priority value — preserves
the original order of the filtered rules (stability of ties). -/
theorem C6_applicable_rules_sorted_stable (rules : List BranchingRule)
    (answers : AnswerMap) :
    List.Sorted ruleLE (getApplicableBranchingRules rules answers) ∧
    (getApplicableBranchingRules rules answers).Perm
      (rules.filter (fun rule => evaluateBranchingRule rule answers)) ∧
    (∀ v : Int, (getApplicableBranchingRules rules answers).filter
        (fun r => rulePriority r == v)
      = (rules.filter (fun rule => evaluateBranchingRule rule answers)).filter
          (fun r => rulePriority r == v)) :=
  ⟨List.sorted_insertionSort ruleLE _, List.perm_insertionSort ruleLE _,
    fun v => filter_key_insertionSort v _⟩

/-! Helper lemmas for `goto_question` (C3). -/

/-- `findIndex` finds nothing when the predicate never holds. -/
theorem findIdx?_eq_none_of_all {α : Type} (p : α → Bool) (l : List α) (s : Nat)
    (h : ∀ x ∈ l, p x = false) : List.findIdx? p l s = none := by
  induction l generalizing s with
  | nil => rfl
  | cons a rest ih =>
    rw [List.findIdx?_cons, if_neg (by simp [h a (List.mem_cons_self a rest)])]
    exact ih _ (fun x hx => h x (List.mem_cons_of_mem _ hx))

/-- `findIndex` over questions comparing codes is `indexOf` over the
code list, when the sought code occurs. -/
theorem findIdx?_target (tc : String) (allQ : List Question)
    (hmem : tc ∈ allQ.map Question.code) :
    List.findIdx? (fun q => (some tc : Option String) == some q.code) allQ
      = some ((allQ.map Question.code).indexOf tc) := by
  induction allQ with
  | nil => simp at hmem
  | cons a rest ih =>
    rw [List.findIdx?_cons]
    by_cases hta : tc = a.code
    · have hpred : ((some tc : Option String) == some a.code) = true := by simp [hta]
      rw [if_pos hpred, List.map_cons, hta, List.indexOf_cons_self]
    · have hpred : ¬(((some tc : Option String) == some a.code) = true) := by simp [hta]
      have hmem2 : tc ∈ rest.map Question.code := by
        rcases List.mem_cons.mp (List.map_cons Question.code a rest ▸ hmem) with h | h
        · exact absurd h hta
        · exact h
      rw [if_neg hpred, List.findIdx?_succ, ih hmem2, List.map_cons,
        List.indexOf_cons_ne _ (fun hh => hta hh.symm)]
      rfl

/-- Membership in a take-prefix is an `indexOf` bound. -/
theorem mem_take_iff_indexOf_le (l : List String) (c : String) (i : Nat)
    (hi : i < l.length) : c ∈ l.take (i + 1) ↔ l.indexOf c ≤ i := by
  induction l generalizing i with
  | nil => simp at hi
  | cons a rest ih =>
    rw [List.take_succ_cons]
    by_cases hca : c = a
    · subst hca
      simp [List.indexOf_cons_self]
    · rw [List.indexOf_cons_ne _ (fun hh => hca hh.symm)]
      cases i with
      | zero => simp [hca]
      | succ j =>
        have hj : j < rest.length := by
          simpa using Nat.lt_of_succ_lt_succ hi
        rw [List.mem_cons]
        simp [hca, ih j hj, Nat.succ_le_succ_iff]

/-- C3: applying a `goto_question` action never adds a question (the
result is a sublist of the current visible list); when the target code
(first entry if the target is an array) does not occur in the original
questions — or the target is an empty array — the visible list is
returned unchanged; and when it occurs, the result is exactly the
current visible list restricted to the questions whose index in the
original question order is at most the target's index. -/
theorem C3_goto_question (cv allQ : List Question) (action : BranchingAction)
    (h : action.type = "goto_question") :
    (applyBranchingAction cv action allQ).Sublist cv ∧
    ((∀ tc, action.target.first = some tc → tc ∉ allQ.map Question.code) →
      applyBranchingAction cv action allQ = cv) ∧
    (∀ tc, action.target.first = some tc → tc ∈ allQ.map Question.code →
      applyBranchingAction cv action allQ
        = cv.filter (fun q =>
            (allQ.map Question.code).indexOf q.code
              ≤ (allQ.map Question.code).indexOf tc)) := by
  have happly : applyBranchingAction cv action allQ
      = match List.findIdx? (fun q => action.target.first == some q.code) allQ with
        | none => cv
        | some targetIndex =>
          cv.filter (fun q =>
            ((allQ.take (targetIndex + 1)).map Question.code).contains q.code) := by
    unfold applyBranchingAction
    rw [h]
    rfl
  refine ⟨?_, ?_, ?_⟩
  · cases hfind : List.findIdx? (fun q => action.target.first == some q.code) allQ with
    | none =>
      rw [happly, hfind]
    | some i =>
      rw [happly, hfind]
      exact List.filter_sublist cv
  · intro hno
    have hfind : List.findIdx? (fun q => action.target.first == some q.code) allQ
        = none := by
      apply findIdx?_eq_none_of_all
      intro q hq
      cases hft : action.target.first with
      | none => rfl
      | some tc =>
        have htcm : tc ∉ allQ.map Question.code := hno tc hft
        have hne : tc ≠ q.code :=
          fun hh => htcm (hh ▸ List.mem_map_of_mem Question.code hq)
        simp [hne]
    rw [happly, hfind]
  · intro tc htc hmem
    have hidx : (allQ.map Question.code).indexOf tc < (allQ.map Question.code).length :=
      List.indexOf_lt_length.mpr hmem
    have hfind : List.findIdx? (fun q => action.target.first == some q.code) allQ
        = some ((allQ.map Question.code).indexOf tc) := by
      rw [htc]
      exact findIdx?_target tc allQ hmem
    rw [happly, hfind]
    apply List.filter_congr
    intro q hq
    rw [List.map_take]
    simp [List.elem_eq_mem, mem_take_iff_indexOf_le _ _ _ hidx]

/-- Fixture: a `goto_question` action targeting `q3`. -/
def gotoAction : BranchingAction :=
  BranchingAction.mk ("goto_question") (StrOrList.single ("q3"))

/-- C3 witness: with the sample survey's questions and a `goto q3`
action over the visible list `[q1, q3, q4]`, the result is a sublist of
the input and equals the restriction to original indices at most the
index of `q3`. -/
theorem C3_goto_question_witness :
    (applyBranchingAction [mockQ1, mockQ3, mockQ4] gotoAction
      mockSurvey.questions).Sublist [mockQ1, mockQ3, mockQ4] ∧
    applyBranchingAction [mockQ1, mockQ3, mockQ4] gotoAction mockSurvey.questions
      = [mockQ1, mockQ3, mockQ4].filter (fun q =>
          (mockSurvey.questions.map Question.code).indexOf q.code
            ≤ (mockSurvey.questions.map Question.code).indexOf ("q3")) :=
  ⟨(C3_goto_question [mockQ1, mockQ3, mockQ4] mockSurvey.questions gotoAction rfl).1,
    (C3_goto_question [mockQ1, mockQ3, mockQ4] mockSurvey.questions gotoAction
      rfl).2.2 ("q3") rfl (by decide)⟩

/-! Helper lemmas for `skip_questions` monotonicity (C2). -/

/-- Branch equation: a `skip_questions` action filters out the targeted
codes. -/
theorem applyBranchingAction_skip_eq (cv allQ : List Question)
    (action : BranchingAction) (h : action.type = "skip_questions") :
    applyBranchingAction cv action allQ
      = cv.filter (fun q => !(action.target.toList.contains q.code)) := by
  unfold applyBranchingAction
  rw [h]
  rfl

/-- Branch equation: a `goto_question` action restricts to the take-prefix
of the original questions, or is the identity when the target is not
found. -/
theorem applyBranchingAction_goto_eq (cv allQ : List Question)
    (action : BranchingAction) (h : action.type = "goto_question") :
    applyBranchingAction cv action allQ
      = match List.findIdx? (fun q => action.target.first == some q.code) allQ with
        | none => cv
        | some targetIndex =>
          cv.filter (fun q =>
            ((allQ.take (targetIndex + 1)).map Question.code).contains q.code) := by
  unfold applyBranchingAction
  rw [h]
  rfl

/-- Branch equation: a `require_questions` action appends the targeted
questions that are not already visible. -/
theorem applyBranchingAction_require_eq (cv allQ : List Question)
    (action : BranchingAction) (h : action.type = "require_questions") :
    applyBranchingAction cv action allQ
      = cv ++ allQ.filter (fun q =>
          action.target.toList.contains q.code
            && !(cv.any (fun vq => vq.code == q.code))) := by
  unfold applyBranchingAction
  rw [h]
  rfl

/-- Branch equation: an `insert_questions_after` action appends the
targeted questions that are not already visible (alias of
`require_questions` in the source). -/
theorem applyBranchingAction_insert_eq (cv allQ : List Question)
    (action : BranchingAction) (h : action.type = "insert_questions_after") :
    applyBranchingAction cv action allQ
      = cv ++ allQ.filter (fun q =>
          action.target.toList.contains q.code
            && !(cv.any (fun vq => vq.code == q.code))) := by
  unfold applyBranchingAction
  rw [h]
  rfl

/-- Branch equation: an unknown action type is a no-op. -/
theorem applyBranchingAction_unknown_eq (cv allQ : List Question)
    (action : BranchingAction)
    (h1 : ¬(action.type = "skip_questions")) (h2 : ¬(action.type = "goto_question"))
    (h3 : ¬(action.type = "require_questions"))
    (h4 : ¬(action.type = "insert_questions_after")) :
    applyBranchingAction cv action allQ = cv := by
  unfold applyBranchingAction
  rw [if_neg h1, if_neg h2, if_neg h3, if_neg h4]

/-- Codes survive a filter. -/
theorem mem_code_filter {c : String} {p : Question → Bool} {l : List Question}
    (h : c ∈ (l.filter p).map Question.code) : c ∈ l.map Question.code := by
  rcases List.mem_map.mp h with ⟨q, hq, rfl⟩
  exact List.mem_map_of_mem _ (List.mem_of_mem_filter hq)

/-- An action that is not a `require_questions`/`insert_questions_after`
naming `c` never introduces a question with code `c` into the visible
list. -/
theorem applyBranchingAction_not_adds (vis allQ : List Question)
    (action : BranchingAction) (c : String)
    (hadd : ¬(((action.type = "require_questions")
        ∨ (action.type = "insert_questions_after")) ∧ c ∈ action.target.toList))
    (hc : c ∉ vis.map Question.code) :
    c ∉ (applyBranchingAction vis action allQ).map Question.code := by
  by_cases h1 : action.type = "skip_questions"
  · rw [applyBranchingAction_skip_eq vis allQ action h1]
    exact fun hmem => hc (mem_code_filter hmem)
  · by_cases h2 : action.type = "goto_question"
    · rw [applyBranchingAction_goto_eq vis allQ action h2]
      cases hfind : List.findIdx? (fun q => action.target.first == some q.code) allQ with
      | none => exact hc
      | some i => exact fun hmem => hc (mem_code_filter hmem)
    · by_cases h3 : action.type = "require_questions"
      · rw [applyBranchingAction_require_eq vis allQ action h3]
        have hct : c ∉ action.target.toList := fun hh => hadd ⟨Or.inl h3, hh⟩
        intro hmem
        rw [List.map_append] at hmem
        rcases List.mem_append.mp hmem with hl | hr
        · exact hc hl
        · rcases List.mem_map.mp hr with ⟨q, hq, rfl⟩
          have hfq := (List.mem_filter.mp hq).2
          have hqt : q.code ∈ action.target.toList := by
            rcases Bool.and_eq_true_iff.mp hfq with ⟨hcontains, _⟩
            simpa [List.elem_eq_mem] using hcontains
          exact hct hqt
      · by_cases h4 : action.type = "insert_questions_after"
        · rw [applyBranchingAction_insert_eq vis allQ action h4]
          have hct : c ∉ action.target.toList := fun hh => hadd ⟨Or.inr h4, hh⟩
          intro hmem
          rw [List.map_append] at hmem
          rcases List.mem_append.mp hmem with hl | hr
          · exact hc hl
          · rcases List.mem_map.mp hr with ⟨q, hq, rfl⟩
            have hfq := (List.mem_filter.mp hq).2
            have hqt : q.code ∈ action.target.toList := by
              rcases Bool.and_eq_true_iff.mp hfq with ⟨hcontains, _⟩
              simpa [List.elem_eq_mem] using hcontains
            exact hct hqt
        · rw [applyBranchingAction_unknown_eq vis allQ action h1 h2 h3 h4]
          exact hc

/-- A fold of rule actions none of which re-adds `c` keeps `c` out of
the visible list. -/
theorem foldl_apply_not_adds (allQ : List Question) (rules : List BranchingRule)
    (c : String) (vis : List Question)
    (hrules : ∀ r ∈ rules, ¬(((r.action.type = "require_questions")
        ∨ (r.action.type = "insert_questions_after")) ∧ c ∈ r.action.target.toList))
    (hc : c ∉ vis.map Question.code) :
    c ∉ (rules.foldl (fun v rule => applyBranchingAction v rule.action allQ)
        vis).map Question.code := by
  induction rules generalizing vis with
  | nil => exact hc
  | cons r rest ih =>
    exact ih _ (fun x hx => hrules x (List.mem_cons_of_mem _ hx))
      (applyBranchingAction_not_adds _ _ _ _ (hrules r (List.mem_cons_self _ _)) hc)

/-- A `skip_questions` action removes every question whose code it
targets. -/
theorem applyBranchingAction_skip_removes (vis allQ : List Question)
    (action : BranchingAction) (c : String)
    (htype : action.type = "skip_questions") (hct : c ∈ action.target.toList) :
    c ∉ (applyBranchingAction vis action allQ).map Question.code := by
  rw [applyBranchingAction_skip_eq vis allQ action htype]
  intro hmem
  rcases List.mem_map.mp hmem with ⟨q, hq, rfl⟩
  have hfq := (List.mem_filter.mp hq).2
  simp [List.elem_eq_mem, hct] at hfq

/-- C2 counterexample: with the sample survey and answers
`{q1:'yes', q2:'25', q3:'young'}`, the `skip_questions` rule targeting
`q4` is applicable (its condition holds and it is first in the sorted
applicable list), yet `q4` IS in the visible list — the later
applicable `require_questions` rule re-adds it during the fold. -/
theorem C2_counterexample :
    mockRule1.action.type = "skip_questions" ∧
    ("q4") ∈ mockRule1.action.target.toList ∧
    evaluateBranchingRule mockRule1 cexAnswers = true ∧
    (getApplicableBranchingRules mockSurvey.branching_rules cexAnswers).map
      BranchingRule.id = [("rule1"), ("rule2")] ∧
    ("q4") ∈ (getVisibleQuestions mockSurvey cexAnswers).map Question.code := by
  exact ⟨rfl, by decide, by decide, by decide, by decide⟩

/-- C2 (amended): if a `skip_questions` rule `R` targeting code `c` is
applicable — it occurs in the sorted applicable-rule list — and no
applicable rule ordered after `R` in that list is a
`require_questions` or `insert_questions_after` action targeting `c`,
then `c` is not among the codes of `getVisibleQuestions`. -/
theorem C2_skip_questions_monotone (survey : Survey) (answers : AnswerMap)
    (c : String) (R : BranchingRule) (l1 l2 : List BranchingRule)
    (hdecomp : getApplicableBranchingRules survey.branching_rules answers
      = l1 ++ R :: l2)
    (htype : R.action.type = "skip_questions")
    (hct : c ∈ R.action.target.toList)
    (hnoadd : ∀ r ∈ l2, ¬(((r.action.type = "require_questions")
        ∨ (r.action.type = "insert_questions_after")) ∧ c ∈ r.action.target.toList)) :
    c ∉ (getVisibleQuestions survey answers).map Question.code := by
  have hvis : getVisibleQuestions survey answers
      = (l1 ++ R :: l2).foldl
          (fun visibleQuestions rule =>
            applyBranchingAction visibleQuestions rule.action survey.questions)
          (survey.questions.filter (fun question =>
            match question.visible_if with
            | none => true
            | some cond => evaluateCondition cond answers)) := by
    rw [← hdecomp]
    rfl
  rw [hvis, List.foldl_append, List.foldl_cons]
  exact foldl_apply_not_adds survey.questions l2 c _ hnoadd
    (applyBranchingAction_skip_removes _ _ _ _ htype hct)

/-- Fixture: the sample survey with only the skip rule. -/
def skipSurvey : Survey :=
  Survey.mk ("test2") ("TEST") ("1.0.0") ("Test Survey 2")
    [mockQ1, mockQ2, mockQ3, mockQ4] [mockRule1]

/-- Fixture: answers `{q3: 'young'}` making only the skip rule apply. -/
def skipAnswers : AnswerMap := fun k =>
  if k = "q3" then Value.str ("young") else Value.undef

/-- C2 witness: with only the skip rule applicable, `q4` is indeed
absent from the visible list. -/
theorem C2_skip_questions_monotone_witness :
    ("q4") ∉ (getVisibleQuestions skipSurvey skipAnswers).map Question.code :=
  C2_skip_questions_monotone skipSurvey skipAnswers ("q4") mockRule1 [] [] rfl rfl
    (by decide) (fun r hr => absurd hr (List.not_mem_nil r))
